import Mathlib

/-
Verification of the sentry-zapcore adapter (a zap Core forwarding log
entries to Sentry).  The repository contains two variants of sentry.go:
an older event-oriented variant (sentry.Event / CaptureEvent) and a newer
structured-log-entry variant (sentry.Logger / LogEntry).  Both are
embedded below, each in its own namespace.  Machine integers are embedded
as Int / Nat with explicit width subtypes (Fin) where the width matters;
external collaborators (the Sentry client, the zap encoder) are embedded
at their interface boundary.
-/

namespace SentryZapCore

/-- zapcore.DebugLevel = -1.  A zap level is an 8-bit signed integer in
Go (zapcore.Level); levels are embedded as unbounded integers so that the
default branch of the severity switch (an unrecognized value) is
representable. -/
def DebugLevel : Int := -1

/-- zapcore.InfoLevel = 0. -/
def InfoLevel : Int := 0

/-- zapcore.WarnLevel = 1. -/
def WarnLevel : Int := 1

/-- zapcore.ErrorLevel = 2. -/
def ErrorLevel : Int := 2

/-- zapcore.DPanicLevel = 3. -/
def DPanicLevel : Int := 3

/-- zapcore.PanicLevel = 4. -/
def PanicLevel : Int := 4

/-- zapcore.FatalLevel = 5. -/
def FatalLevel : Int := 5

/-- zapcore.Level.Enabled: a Level used as a LevelEnabler accepts every
level at or above itself (Go: lvl >= l). -/
def levelEnabled (minLevel lvl : Int) : Bool := decide (minLevel ≤ lvl)

/-- Sentry event severity (sentry.Level), as produced by sentrySeverity
in the event variant. -/
inductive SentryLevel where
  | debug
  | info
  | warning
  | error
  | fatal
  deriving DecidableEq, Repr

/-- Direct translation of sentrySeverity (event variant): a switch on the
zap level; DPanic, Panic and Fatal map to fatal, and so does the default
branch for unrecognized levels. -/
def sentrySeverity (lvl : Int) : SentryLevel :=
  if lvl = DebugLevel then SentryLevel.debug
  else if lvl = InfoLevel then SentryLevel.info
  else if lvl = WarnLevel then SentryLevel.warning
  else if lvl = ErrorLevel then SentryLevel.error
  else if lvl = DPanicLevel then SentryLevel.fatal
  else if lvl = PanicLevel then SentryLevel.fatal
  else if lvl = FatalLevel then SentryLevel.fatal
  else SentryLevel.fatal

/-- Which leveled log entry constructor of the Sentry structured logger is
selected by logEntryForLevel (log-entry variant). -/
inductive LogEntryLevel where
  | debug
  | info
  | warn
  | error
  deriving DecidableEq, Repr

/-- Direct translation of logEntryForLevel (log-entry variant): DPanic,
Panic, Fatal and the default branch all select logger.Error(). -/
def logEntryForLevel (lvl : Int) : LogEntryLevel :=
  if lvl = DebugLevel then LogEntryLevel.debug
  else if lvl = InfoLevel then LogEntryLevel.info
  else if lvl = WarnLevel then LogEntryLevel.warn
  else if lvl = ErrorLevel then LogEntryLevel.error
  else if lvl = DPanicLevel ∨ lvl = PanicLevel ∨ lvl = FatalLevel then LogEntryLevel.error
  else LogEntryLevel.error

/-- Opaque code for a Go floating-point value.  The float32 to float64
widening in the source is exact and value-preserving, so the code is
carried through unchanged; no claim inspects the numeric value itself. -/
abbrev GoFloat := Nat

/-- Interface view of a Go time.Time value: all the coercion path reads
from it is its RFC3339-with-nanoseconds rendering (v.Format(time.RFC3339Nano)). -/
structure GoTime where
  rfc3339nano : String
  deriving DecidableEq, Repr

/-- Interface view of a Go time.Duration value: all the coercion path
reads from it is its canonical rendering (v.String()). -/
structure GoDuration where
  canonical : String
  deriving DecidableEq, Repr

/-- A dynamically typed Go value (interface, i.e. the open input type of
applyValue), as a closed variant covering exactly the arms of the type
switch in the source.  Unsigned widths carry their Go range as a Fin
bound; []byte carries its text decoding (Go string(v) reinterprets the
same bytes); error and Stringer values carry the string the source
extracts from them; other carries the fmt.Sprint fallback rendering.
A value of a type implementing both error and Stringer is classified as
err, mirroring the earlier error arm of the source type switch. -/
inductive GoVal where
  | str (s : String)
  | bytes (decoded : String)
  | goBool (b : Bool)
  | goInt (n : Int)
  | i8 (n : Int)
  | i16 (n : Int)
  | i32 (n : Int)
  | i64 (n : Int)
  | u (n : Fin (2 ^ 64))
  | u8 (n : Fin (2 ^ 8))
  | u16 (n : Fin (2 ^ 16))
  | u32 (n : Fin (2 ^ 32))
  | u64 (n : Fin (2 ^ 64))
  | f32 (x : GoFloat)
  | f64 (x : GoFloat)
  | time (t : GoTime)
  | duration (d : GoDuration)
  | err (msg : String)
  | stringer (rendered : String)
  | other (rendered : String)
  deriving DecidableEq, Repr

/-- One call into the valueSink interface: which setter applyValue invoked
and with which argument. -/
inductive SinkCall where
  | setString (s : String)
  | setBool (b : Bool)
  | setInt (n : Int)
  | setInt64 (n : Int)
  | setFloat64 (x : GoFloat)
  deriving DecidableEq, Repr

/-- math.MaxInt64. -/
def maxInt64 : Nat := 2 ^ 63 - 1

/-- Direct translation of applyValue (log-entry variant): the type switch
dispatching a dynamically typed value into exactly one sink setter.
Signed widths below 64 bits go through SetInt (Go int(v), value
preserving); uint and uint64 fall back to the decimal string rendering
(fmt.Sprint) when the value exceeds math.MaxInt64, otherwise narrow to
int64; uint8/16/32 always fit and go to SetInt64 directly. -/
def applyValue : GoVal → SinkCall
  | GoVal.str s => SinkCall.setString s
  | GoVal.bytes b => SinkCall.setString b
  | GoVal.goBool b => SinkCall.setBool b
  | GoVal.goInt n => SinkCall.setInt n
  | GoVal.i8 n => SinkCall.setInt n
  | GoVal.i16 n => SinkCall.setInt n
  | GoVal.i32 n => SinkCall.setInt n
  | GoVal.i64 n => SinkCall.setInt64 n
  | GoVal.u n =>
    if n.val > maxInt64 then SinkCall.setString (Nat.repr n.val)
    else SinkCall.setInt64 (Int.ofNat n.val)
  | GoVal.u8 n => SinkCall.setInt64 (Int.ofNat n.val)
  | GoVal.u16 n => SinkCall.setInt64 (Int.ofNat n.val)
  | GoVal.u32 n => SinkCall.setInt64 (Int.ofNat n.val)
  | GoVal.u64 n =>
    if n.val > maxInt64 then SinkCall.setString (Nat.repr n.val)
    else SinkCall.setInt64 (Int.ofNat n.val)
  | GoVal.f32 x => SinkCall.setFloat64 x
  | GoVal.f64 x => SinkCall.setFloat64 x
  | GoVal.time t => SinkCall.setString t.rfc3339nano
  | GoVal.duration d => SinkCall.setString d.canonical
  | GoVal.err m => SinkCall.setString m
  | GoVal.stringer r => SinkCall.setString r
  | GoVal.other r => SinkCall.setString r

/-- Output kind at the backend attribute ABI. -/
inductive OutKind where
  | string
  | bool
  | int64
  | float64
  deriving DecidableEq, Repr

/-- Kind of a sink call at the final output ABI.  The sentry attribute
and log-entry builders represent both the Int and the Int64 setters as a
64-bit integer attribute (attribute.Int delegates to attribute.Int64), so
the int/int64 split collapses to int64 here. -/
def outKind : SinkCall → OutKind
  | SinkCall.setString _ => OutKind.string
  | SinkCall.setBool _ => OutKind.bool
  | SinkCall.setInt _ => OutKind.int64
  | SinkCall.setInt64 _ => OutKind.int64
  | SinkCall.setFloat64 _ => OutKind.float64

/-- An opaque execution-context handle (Go context.Context), the
trace/span carrier smuggled through a skip-type field.  background is
context.Background(). -/
inductive Ctx where
  | background
  | handle (id : Nat)
  deriving DecidableEq, Repr

/-- The zapcore.Field types used by this adapter's claims: a
representative closed subset of the zap field tags (string, int64, bool,
error, and the skip marker used as the context carrier). -/
inductive FieldType where
  | stringType
  | int64Type
  | boolType
  | errorType
  | skipType
  deriving DecidableEq, Repr

/-- The Interface payload of a zapcore.Field, as far as the source
inspects it: a non-nil context.Context value, an error value (only its
message is read), a nil interface, or anything else. -/
inductive FieldIface where
  | nilIface
  | ctxVal (c : Ctx)
  | errVal (msg : String)
  | otherVal
  deriving DecidableEq, Repr

/-- A zapcore.Field: key, type tag, and the payload slots the embedded
field types read (Integer, String, Interface). -/
structure Field where
  key : String
  type : FieldType
  integer : Int
  string : String
  iface : FieldIface
  deriving DecidableEq, Repr

/-- The map built by zapcore.NewMapObjectEncoder, as an association list
with in-place overwrite on key collision (Go map semantics up to the
unspecified iteration order, for which insertion order is the canonical
choice). -/
abbrev FieldMap := List (String × GoVal)

/-- Lookup in a field map (first binding; maps built by fmInsert keep at
most one binding per key). -/
def fmLookup : FieldMap → String → Option GoVal
  | [], _ => none
  | (k0, v) :: rest, k => if k0 = k then some v else fmLookup rest k

/-- Go map assignment m[k] = v: overwrite in place if present, else add. -/
def fmInsert : FieldMap → String → GoVal → FieldMap
  | [], k, v => [(k, v)]
  | (k0, v0) :: rest, k, v =>
    if k0 = k then (k, v) :: rest else (k0, v0) :: fmInsert rest k v

/-- Last binding of a key in an association list (last-write-wins view,
used to state overwrite semantics of sequential Go map assignments). -/
def lastBinding : FieldMap → String → Option GoVal
  | [], _ => none
  | (k0, v) :: rest, k =>
    match lastBinding rest k with
    | some w => some w
    | none => if k0 = k then some v else none

/-- Direct translation of zapcore.Field.AddTo into a map encoder for the
embedded field types: skip contributes nothing, string/int64/bool store
their payload, error stores the error message (zap encodeError);
an error field whose payload is not an error value is left out (in Go
that call would fail the type assertion). -/
def fieldAddTo (m : FieldMap) (f : Field) : FieldMap :=
  match f.type with
  | FieldType.skipType => m
  | FieldType.stringType => fmInsert m f.key (GoVal.str f.string)
  | FieldType.int64Type => fmInsert m f.key (GoVal.i64 f.integer)
  | FieldType.boolType => fmInsert m f.key (GoVal.goBool (f.integer == 1))
  | FieldType.errorType =>
    match f.iface with
    | FieldIface.errVal msg => fmInsert m f.key (GoVal.str msg)
    | _ => m

/-- Encoding a field list through a fresh map encoder (the enc loop of
the event-variant addFields: for each f, f.AddTo(enc)). -/
def encMap (fields : List Field) : FieldMap := fields.foldl fieldAddTo []

/-- Go map merge loop (for k, v := range extra: base[k] = v), pointwise
overwrite of base by every binding of extra. -/
def mergeInto (base extra : FieldMap) : FieldMap :=
  extra.foldl (fun m kv => fmInsert m kv.1 kv.2) base

theorem fmLookup_fmInsert (m : FieldMap) (k : String) (v : GoVal) (k2 : String) :
    fmLookup (fmInsert m k v) k2 = if k = k2 then some v else fmLookup m k2 := by
  induction m with
  | nil => simp [fmInsert, fmLookup]
  | cons p rest ih =>
    obtain ⟨k0, v0⟩ := p
    by_cases h : k0 = k
    · subst h
      by_cases h2 : k0 = k2 <;> simp [fmInsert, fmLookup, h2]
    · by_cases h2 : k0 = k2
      · subst h2
        have hk : ¬ k = k0 := fun hk => h hk.symm
        simp [fmInsert, fmLookup, h, hk]
      · simp [fmInsert, fmLookup, h, h2, ih]

theorem lastBinding_none_iff (m : FieldMap) (k : String) :
    lastBinding m k = none ↔ fmLookup m k = none := by
  induction m with
  | nil => simp [lastBinding, fmLookup]
  | cons p rest ih =>
    obtain ⟨k0, v0⟩ := p
    by_cases h : k0 = k
    · cases hl : lastBinding rest k <;> simp_all [lastBinding, fmLookup, h]
    · cases hl : lastBinding rest k <;> simp_all [lastBinding, fmLookup, h]

theorem mergeInto_lookup (extra : FieldMap) (base : FieldMap) (k : String) :
    fmLookup (mergeInto base extra) k =
      match lastBinding extra k with
      | some w => some w
      | none => fmLookup base k := by
  induction extra generalizing base with
  | nil => simp [mergeInto, lastBinding]
  | cons p rest ih =>
    obtain ⟨k0, v0⟩ := p
    have step : mergeInto base ((k0, v0) :: rest) = mergeInto (fmInsert base k0 v0) rest := by
      simp [mergeInto]
    rw [step, ih]
    cases hl : lastBinding rest k with
    | some w => simp [lastBinding, hl]
    | none =>
      by_cases h : k0 = k
      · subst h
        simp [lastBinding, hl, fmLookup_fmInsert]
      · simp [lastBinding, hl, fmLookup_fmInsert, h]

/-- A zapcore.Entry as read by this adapter: level, message, logger name,
pre-rendered stack text, caller information and an opaque timestamp code. -/
structure Entry where
  level : Int
  message : String
  loggerName : String
  stack : String
  callerDefined : Bool
  callerFile : String
  callerLine : Int
  time : Nat
  deriving DecidableEq, Repr

/-- Interface view of the Sentry backend client: the only datum the
adapter reads from it is Options().MaxErrorDepth. -/
structure Client where
  maxErrorDepth : Int
  deriving DecidableEq, Repr

/-- Interface view of a Sentry hub: it may or may not hold a configured
client (sentry.Init not called means no client). -/
structure Hub where
  client : Option Client
  deriving DecidableEq, Repr

/-- A unit of flush work, tagged with its timeout in seconds
(sentry.Flush(2 * time.Second)). -/
inductive BgAction where
  | flush (timeoutSeconds : Nat)
  deriving DecidableEq, Repr

/-- Result of a Sync call: the returned Go error, the actions executed on
the calling goroutine before returning, and the goroutines spawned. -/
structure SyncOut where
  err : Option String
  syncActions : List BgAction
  spawned : List BgAction
  deriving DecidableEq, Repr

namespace EventVariant

/-- The event-variant SentryCore: embedded LevelEnabler (always a plain
zapcore.Level here, the only enabler the constructor and options ever
install), the accumulated fields map if present, and the stack-trace
policy flag. -/
structure SentryCore where
  minLevel : Int
  fields : FieldMap
  stackTrace : Bool
  deriving DecidableEq, Repr

/-- SentryCoreOptions: a constructor option mutates the core being built. -/
abbrev SentryCoreOptions := SentryCore → SentryCore

/-- WithStackTrace option (options.go). -/
def WithStackTrace : SentryCoreOptions := fun s => { s with stackTrace := true }

/-- WithMinLevel option (options.go). -/
def WithMinLevel (lvl : Int) : SentryCoreOptions := fun s => { s with minLevel := lvl }

/-- NewSentryCore: defaults to the error level and an empty field map,
then applies the options in order. -/
def NewSentryCore (options : List SentryCoreOptions) : SentryCore :=
  options.foldl (fun s opt => opt s)
    { minLevel := ErrorLevel, fields := [], stackTrace := false }

/-- Direct translation of the event-variant addFields: copy the existing
map, encode the new fields through a fresh map encoder, merge the encoder
output over the copy.  The returned struct literal in the source sets
only LevelEnabler and fields, so stackTrace is the Go zero value false. -/
def addFields (s : SentryCore) (fields : List Field) : SentryCore :=
  { minLevel := s.minLevel
    fields := mergeInto s.fields (encMap fields)
    stackTrace := false }

/-- Event-variant With, which just delegates to addFields. -/
def With (s : SentryCore) (fields : List Field) : SentryCore := addFields s fields

/-- Check: if the entry's level is enabled, add this core to the checked
entry (modelled as the list of cores that will receive Write), otherwise
return the checked entry unchanged. -/
def Check (s : SentryCore) (entry : Entry) (checked : List SentryCore) : List SentryCore :=
  if levelEnabled s.minLevel entry.level then checked ++ [s] else checked

/-- Provenance of an attached stack trace.  freshCapture is a stack
captured at the capture point (sentry-go Event.SetException stores
ExtractStacktrace of the error, and errors.New carries none, so the
client substitutes a freshly captured, non-empty sentry.NewStacktrace());
text would be a stack taken from pre-rendered stack text, which the event
variant never produces. -/
inductive StackSrc where
  | freshCapture
  | text (s : String)
  deriving DecidableEq, Repr

/-- Interface view of the single exception entry produced by
event.SetException(errors.New(entry.Message), maxDepth): its value is the
message, its chain depth is bounded by maxDepth, and its stack trace is a
fresh capture. -/
structure ExcPayload where
  message : String
  maxDepth : Int
  stack : StackSrc
  deriving DecidableEq, Repr

/-- The sentry.Event the event-variant Write constructs. -/
structure Event where
  extra : FieldMap
  fingerprint : List String
  level : SentryLevel
  message : String
  platform : String
  time : Nat
  loggerName : String
  tags : List (String × String)
  exception : List ExcPayload
  deriving DecidableEq, Repr

/-- Interface view of hub.CaptureEvent: a hub without a configured client
silently drops the event (no record is captured); with a client, the
event reaches the transport as one captured record. -/
def captureEvent (hub : Hub) (ev : Event) : List Event :=
  match hub.client with
  | none => []
  | some _ => [ev]

/-- Result of an event-variant Write call: the returned Go error, the
constructed event, the records the backend captures, the actions run on
the calling goroutine before Write returns (the deferred flush), and the
goroutines spawned (none in this variant). -/
structure WriteOut where
  err : Option String
  event : Event
  captured : List Event
  syncActions : List BgAction
  spawned : List BgAction
  deriving DecidableEq, Repr

/-- Direct translation of the event-variant Write: clone the hub, tag the
scope with the caller file/line, layer the one-shot fields onto the
accumulated context, construct the event (extra, message fingerprint,
mapped severity, message, platform, timestamp, logger name), attach the
exception payload when the level is at or above error and the policy is
on (depth = client MaxErrorDepth, or the fallback 10 without a client),
capture it on the local hub, and run the deferred 2-second flush on the
calling goroutine before returning nil. -/
def Write (s : SentryCore) (hub : Hub) (entry : Entry) (fields : List Field) : WriteOut :=
  let localHub := hub
  let tags := [(("file" : String), entry.callerFile), (("line" : String), toString entry.callerLine)]
  let clone := addFields s fields
  let ev : Event :=
    { extra := clone.fields
      fingerprint := [entry.message]
      level := sentrySeverity entry.level
      message := entry.message
      platform := "go"
      time := entry.time
      loggerName := entry.loggerName
      tags := tags
      exception := [] }
  let ev :=
    if ErrorLevel ≤ entry.level ∧ s.stackTrace = true then
      let maxDepth : Int := match localHub.client with
        | none => 10
        | some c => c.maxErrorDepth
      { ev with exception := [{ message := entry.message, maxDepth := maxDepth, stack := StackSrc.freshCapture }] }
    else ev
  { err := none
    event := ev
    captured := captureEvent localHub ev
    syncActions := [BgAction.flush 2]
    spawned := [] }

/-- Event-variant Sync: a synchronous 2-second flush, then nil. -/
def Sync : SyncOut :=
  { err := none, syncActions := [BgAction.flush 2], spawned := [] }

end EventVariant

namespace LogVariant

/-- Interface view of a sentry.Logger: the execution context it was
created with (GetCtx, which may be nil) and the attributes installed via
SetAttributes. -/
structure Logger where
  ctx : Option Ctx
  attrs : List (String × SinkCall)
  deriving DecidableEq, Repr

/-- The log-entry-variant SentryCore: level enabler (again always a plain
level), the Sentry logger, the accumulated attribute builders, and the
stack-trace policy flag. -/
structure SentryCore where
  minLevel : Int
  logger : Logger
  attributes : List (String × SinkCall)
  stackTrace : Bool
  deriving DecidableEq, Repr

/-- The context carried by one field, if it is a skip-type field whose
Interface payload is a non-nil context.Context. -/
def fieldCtx (f : Field) : Option Ctx :=
  if f.type = FieldType.skipType then
    match f.iface with
    | FieldIface.ctxVal c => some c
    | _ => none
  else none

/-- One iteration of the encodeFields loop: a skip-type field updates the
extracted context when it carries one and is never added to the encoder;
any other field is encoded via AddTo. -/
def encStep (acc : Option Ctx × FieldMap) (f : Field) : Option Ctx × FieldMap :=
  if f.type = FieldType.skipType then
    match f.iface with
    | FieldIface.ctxVal c => (some c, acc.2)
    | _ => acc
  else (acc.1, fieldAddTo acc.2 f)

/-- Direct translation of encodeFields: fold the fields through a fresh
map encoder, extracting the last context carrier on the way. -/
def encodeFields (fields : List Field) : Option Ctx × FieldMap :=
  fields.foldl encStep (none, [])

/-- The last context carrier in a field list (the specification-level
description of what the encodeFields loop extracts). -/
def lastCtxCarrier : List Field → Option Ctx
  | [] => none
  | f :: rest =>
    match lastCtxCarrier rest with
    | some c => some c
    | none => fieldCtx f

/-- attributeFromValue: run applyValue into an attribute sink, which
records the setter that was called under the key. -/
def attributeFromValue (key : String) (value : GoVal) : String × SinkCall :=
  (key, applyValue value)

/-- attributesFromValues: one attribute builder per map binding. -/
def attributesFromValues (values : FieldMap) : List (String × SinkCall) :=
  values.map (fun kv => attributeFromValue kv.1 kv.2)

/-- Direct translation of the log-entry-variant With: start from the
logger's context (context.Background() when nil), copy the accumulated
attribute builders, encode the new fields, let an extracted carrier
replace the context, append the new attributes, and return a fresh core
holding a new logger built from that context and those attributes.  (The
source guards SetAttributes behind a non-emptiness check, which is
observationally the same as always installing the list.) -/
def With (s : SentryCore) (fields : List Field) : SentryCore :=
  let ctxOld := match s.logger.ctx with
    | none => Ctx.background
    | some c => c
  let attrs0 := s.attributes
  let r := encodeFields fields
  let ctxNew := match r.1 with
    | none => ctxOld
    | some c => c
  let attrs := attrs0 ++ attributesFromValues r.2
  { minLevel := s.minLevel
    logger := { ctx := some ctxNew, attrs := attrs }
    attributes := attrs
    stackTrace := s.stackTrace }

/-- Interface view of a sentry.LogEntry under construction: the selected
severity, the context it will be emitted against (starting from the
logger's), the attribute setter calls applied so far (starting from the
logger's attributes), and finally the emitted message. -/
structure LogEntryRec where
  level : LogEntryLevel
  ctx : Option Ctx
  attrs : List (String × SinkCall)
  message : String
  deriving DecidableEq, Repr

/-- LogEntry.String(k, v). -/
def entryString (e : LogEntryRec) (k v : String) : LogEntryRec :=
  { e with attrs := e.attrs ++ [(k, SinkCall.setString v)] }

/-- LogEntry.Int(k, n). -/
def entryInt (e : LogEntryRec) (k : String) (n : Int) : LogEntryRec :=
  { e with attrs := e.attrs ++ [(k, SinkCall.setInt n)] }

/-- applyValueToLogEntry: run applyValue into a log-entry sink, which
appends the recorded setter call. -/
def applyValueToLogEntry (e : LogEntryRec) (k : String) (v : GoVal) : LogEntryRec :=
  { e with attrs := e.attrs ++ [(k, applyValue v)] }

/-- The log entry produced by logEntryForLevel on this core's logger,
before any per-entry data is applied. -/
def logEntryStart (s : SentryCore) (lvl : Int) : LogEntryRec :=
  { level := logEntryForLevel lvl
    ctx := s.logger.ctx
    attrs := s.logger.attrs
    message := "" }

/-- The log-entry-variant Write pipeline up to (but excluding) the
stack-trace step: select the leveled entry, encode the fields, override
the context if a carrier was extracted, apply every encoded value, then
the logger name and caller attributes when present. -/
def writeBeforeStack (s : SentryCore) (entry : Entry) (fields : List Field) : LogEntryRec :=
  let le := logEntryStart s entry.level
  let r := encodeFields fields
  let le := match r.1 with
    | none => le
    | some c => { le with ctx := some c }
  let le := r.2.foldl (fun e kv => applyValueToLogEntry e kv.1 kv.2) le
  let le := if entry.loggerName ≠ "" then entryString le ("logger") entry.loggerName else le
  let le :=
    if entry.callerDefined = true then
      entryInt (entryString le ("caller.file") entry.callerFile) ("caller.line") entry.callerLine
    else le
  le

/-- Result of a log-entry-variant Write call: the returned Go error, the
emitted record, the records captured by the backend, the actions run on
the calling goroutine, and the spawned goroutines (the go flushSentry()). -/
structure WriteOut where
  err : Option String
  record : LogEntryRec
  captured : List LogEntryRec
  syncActions : List BgAction
  spawned : List BgAction
  deriving DecidableEq, Repr

/-- Direct translation of the log-entry-variant Write: run the pipeline,
attach the stack text when the policy is on and the level is at or above
error (preferring the entry's pre-rendered stack, else a stack captured
fresh at this point, passed in as freshStack), emit the message, spawn
the background flush goroutine, and return nil.  A logger without a
configured backend client captures nothing. -/
def Write (s : SentryCore) (entry : Entry) (fields : List Field)
    (freshStack : String) (client : Option Client) : WriteOut :=
  let le := writeBeforeStack s entry fields
  let le :=
    if s.stackTrace = true ∧ ErrorLevel ≤ entry.level then
      let stack := if entry.stack ≠ "" then entry.stack else freshStack
      entryString le ("stacktrace") stack
    else le
  let emitted := { le with message := entry.message }
  { err := none
    record := emitted
    captured := match client with
      | none => []
      | some _ => [emitted]
    syncActions := []
    spawned := [BgAction.flush 2] }

/-- Log-entry-variant Sync: spawn the background flush, return nil. -/
def Sync : SyncOut :=
  { err := none, syncActions := [], spawned := [BgAction.flush 2] }

end LogVariant

/-- C1: an entry whose level is strictly below the configured minimum is
rejected by Check (the checked entry is returned unchanged, so no record
is forwarded to the backend); an entry at or above the minimum is
accepted (the core is added to the checked entry); the default minimum
installed by NewSentryCore is the error level; and the decision depends
only on the entry's level and the configured minimum. -/
theorem C1_check_level_gating :
    ∀ (s : EventVariant.SentryCore) (entry : Entry) (checked : List EventVariant.SentryCore),
      (entry.level < s.minLevel → EventVariant.Check s entry checked = checked) ∧
      (s.minLevel ≤ entry.level → EventVariant.Check s entry checked = checked ++ [s]) ∧
      (EventVariant.NewSentryCore []).minLevel = ErrorLevel ∧
      (∀ (s2 : EventVariant.SentryCore) (e2 : Entry),
        entry.level = e2.level → s.minLevel = s2.minLevel →
        levelEnabled s.minLevel entry.level = levelEnabled s2.minLevel e2.level) := by
  intro s entry checked
  refine ⟨?_, ?_, rfl, ?_⟩
  · intro h
    have hb : levelEnabled s.minLevel entry.level = false := by
      simp [levelEnabled]
      omega
    simp [EventVariant.Check, hb]
  · intro h
    have hb : levelEnabled s.minLevel entry.level = true := by
      simp [levelEnabled, h]
    simp [EventVariant.Check, hb]
  · intro s2 e2 he hs
    rw [he, hs]

/-- C1 witness: with the default configuration, an info-level entry is
rejected and an error-level entry is accepted. -/
theorem C1_check_level_gating_witness :
    EventVariant.Check (EventVariant.NewSentryCore [])
        { level := InfoLevel, message := "m", loggerName := "", stack := "",
          callerDefined := false, callerFile := "", callerLine := 0, time := 0 } [] = [] ∧
    EventVariant.Check (EventVariant.NewSentryCore [])
        { level := ErrorLevel, message := "m", loggerName := "", stack := "",
          callerDefined := false, callerFile := "", callerLine := 0, time := 0 } []
      = [EventVariant.NewSentryCore []] := by
  constructor
  · exact (C1_check_level_gating (EventVariant.NewSentryCore [])
      { level := InfoLevel, message := "m", loggerName := "", stack := "",
        callerDefined := false, callerFile := "", callerLine := 0, time := 0 } []).1
      (by decide)
  · exact (C1_check_level_gating (EventVariant.NewSentryCore [])
      { level := ErrorLevel, message := "m", loggerName := "", stack := "",
        callerDefined := false, callerFile := "", callerLine := 0, time := 0 } []).2.1
      (by decide)

/-- C2: Write and Sync of both variants always return a nil error, and
without a configured backend client the dispatch is a silent no-op
producing zero captured records. -/
theorem C2_write_sync_infallible :
    ∀ (s : EventVariant.SentryCore) (hub : Hub) (entry : Entry) (fields : List Field)
      (t : LogVariant.SentryCore) (entry2 : Entry) (fields2 : List Field)
      (fresh : String) (client : Option Client),
      (EventVariant.Write s hub entry fields).err = none ∧
      EventVariant.Sync.err = none ∧
      (LogVariant.Write t entry2 fields2 fresh client).err = none ∧
      LogVariant.Sync.err = none ∧
      (hub.client = none → (EventVariant.Write s hub entry fields).captured = []) ∧
      (client = none → (LogVariant.Write t entry2 fields2 fresh client).captured = []) := by
  intro s hub entry fields t entry2 fields2 fresh client
  refine ⟨rfl, rfl, rfl, rfl, ?_, ?_⟩
  · intro h
    simp [EventVariant.Write, EventVariant.captureEvent, h]
  · intro h
    simp [LogVariant.Write, h]

/-- C2 witness: on a concrete entry with no backend client configured,
both variants capture nothing. -/
theorem C2_write_sync_infallible_witness :
    (EventVariant.Write (EventVariant.NewSentryCore []) { client := none }
        { level := ErrorLevel, message := "m", loggerName := "", stack := "",
          callerDefined := false, callerFile := "", callerLine := 0, time := 0 } []).captured = [] ∧
    (LogVariant.Write
        { minLevel := ErrorLevel, logger := { ctx := none, attrs := [] },
          attributes := [], stackTrace := false }
        { level := ErrorLevel, message := "m", loggerName := "", stack := "",
          callerDefined := false, callerFile := "", callerLine := 0, time := 0 } [] "" none).captured = [] := by
  constructor
  · exact (C2_write_sync_infallible (EventVariant.NewSentryCore []) { client := none }
      { level := ErrorLevel, message := "m", loggerName := "", stack := "",
        callerDefined := false, callerFile := "", callerLine := 0, time := 0 } []
      { minLevel := ErrorLevel, logger := { ctx := none, attrs := [] },
        attributes := [], stackTrace := false }
      { level := ErrorLevel, message := "m", loggerName := "", stack := "",
        callerDefined := false, callerFile := "", callerLine := 0, time := 0 } [] "" none).2.2.2.2.1 rfl
  · exact (C2_write_sync_infallible (EventVariant.NewSentryCore []) { client := none }
      { level := ErrorLevel, message := "m", loggerName := "", stack := "",
        callerDefined := false, callerFile := "", callerLine := 0, time := 0 } []
      { minLevel := ErrorLevel, logger := { ctx := none, attrs := [] },
        attributes := [], stackTrace := false }
      { level := ErrorLevel, message := "m", loggerName := "", stack := "",
        callerDefined := false, callerFile := "", callerLine := 0, time := 0 } [] "" none).2.2.2.2.2 rfl

/-- C3: the severity mapper is total: debug, info, warn and error map to
their namesakes, every level at or above the DPanic tier maps to fatal,
and every unrecognized level (the default branch) also maps to fatal, so
no level is dropped. -/
theorem C3_severity_mapping :
    sentrySeverity DebugLevel = SentryLevel.debug ∧
    sentrySeverity InfoLevel = SentryLevel.info ∧
    sentrySeverity WarnLevel = SentryLevel.warning ∧
    sentrySeverity ErrorLevel = SentryLevel.error ∧
    (∀ lvl : Int, DPanicLevel ≤ lvl → sentrySeverity lvl = SentryLevel.fatal) ∧
    (∀ lvl : Int, lvl ≠ DebugLevel → lvl ≠ InfoLevel → lvl ≠ WarnLevel →
      lvl ≠ ErrorLevel → lvl ≠ DPanicLevel → lvl ≠ PanicLevel → lvl ≠ FatalLevel →
      sentrySeverity lvl = SentryLevel.fatal) := by
  refine ⟨rfl, rfl, rfl, rfl, ?_, ?_⟩
  · intro lvl h
    simp only [DPanicLevel] at h
    simp only [sentrySeverity, DebugLevel, InfoLevel, WarnLevel, ErrorLevel,
      DPanicLevel, PanicLevel, FatalLevel]
    split_ifs <;> first | rfl | (exfalso; omega)
  · intro lvl h1 h2 h3 h4 h5 h6 h7
    simp only [DebugLevel, InfoLevel, WarnLevel, ErrorLevel, DPanicLevel,
      PanicLevel, FatalLevel] at h1 h2 h3 h4 h5 h6 h7
    simp only [sentrySeverity, DebugLevel, InfoLevel, WarnLevel, ErrorLevel,
      DPanicLevel, PanicLevel, FatalLevel]
    split_ifs <;> first | rfl | (exfalso; omega)

/-- C3 witness: the DPanic tier and an out-of-range level both map to
fatal. -/
theorem C3_severity_mapping_witness :
    sentrySeverity 3 = SentryLevel.fatal ∧ sentrySeverity (-7) = SentryLevel.fatal := by
  constructor
  · exact C3_severity_mapping.2.2.2.2.1 3 (by decide)
  · exact C3_severity_mapping.2.2.2.2.2 (-7)
      (by decide) (by decide) (by decide) (by decide) (by decide) (by decide) (by decide)

/-- C6: value coercion is total and deterministic (applyValue is a total
function), every arm of the type switch places its input into exactly one
sink setter: temporal values render to strings (RFC3339-with-nanoseconds
timestamps, canonical duration strings), string-like values (strings,
byte sequences, error messages, stringer renderings) go to the string
setter, booleans to the bool setter, signed integers to an integer setter
of int64 output kind with the value preserved, floating point to the
float64 setter, and any unrecognized value falls through to the
human-readable string fallback; every output is one of the four kinds. -/
theorem C6_apply_value_total_coercion :
    (∀ t : GoTime, applyValue (GoVal.time t) = SinkCall.setString t.rfc3339nano) ∧
    (∀ d : GoDuration, applyValue (GoVal.duration d) = SinkCall.setString d.canonical) ∧
    (∀ s : String, applyValue (GoVal.str s) = SinkCall.setString s) ∧
    (∀ b : String, applyValue (GoVal.bytes b) = SinkCall.setString b) ∧
    (∀ m : String, applyValue (GoVal.err m) = SinkCall.setString m) ∧
    (∀ r : String, applyValue (GoVal.stringer r) = SinkCall.setString r) ∧
    (∀ b : Bool, applyValue (GoVal.goBool b) = SinkCall.setBool b) ∧
    (∀ n : Int, applyValue (GoVal.goInt n) = SinkCall.setInt n ∧
      outKind (applyValue (GoVal.goInt n)) = OutKind.int64) ∧
    (∀ n : Int, applyValue (GoVal.i8 n) = SinkCall.setInt n ∧
      outKind (applyValue (GoVal.i8 n)) = OutKind.int64) ∧
    (∀ n : Int, applyValue (GoVal.i16 n) = SinkCall.setInt n ∧
      outKind (applyValue (GoVal.i16 n)) = OutKind.int64) ∧
    (∀ n : Int, applyValue (GoVal.i32 n) = SinkCall.setInt n ∧
      outKind (applyValue (GoVal.i32 n)) = OutKind.int64) ∧
    (∀ n : Int, applyValue (GoVal.i64 n) = SinkCall.setInt64 n ∧
      outKind (applyValue (GoVal.i64 n)) = OutKind.int64) ∧
    (∀ x : GoFloat, applyValue (GoVal.f32 x) = SinkCall.setFloat64 x) ∧
    (∀ x : GoFloat, applyValue (GoVal.f64 x) = SinkCall.setFloat64 x) ∧
    (∀ r : String, applyValue (GoVal.other r) = SinkCall.setString r) ∧
    (∀ v : GoVal, outKind (applyValue v) = OutKind.string ∨
      outKind (applyValue v) = OutKind.bool ∨
      outKind (applyValue v) = OutKind.int64 ∨
      outKind (applyValue v) = OutKind.float64) := by
  refine ⟨fun t => rfl, fun d => rfl, fun s => rfl, fun b => rfl, fun m => rfl,
    fun r => rfl, fun b => rfl, fun n => ⟨rfl, rfl⟩, fun n => ⟨rfl, rfl⟩,
    fun n => ⟨rfl, rfl⟩, fun n => ⟨rfl, rfl⟩, fun n => ⟨rfl, rfl⟩,
    fun x => rfl, fun x => rfl, fun r => rfl, ?_⟩
  intro v
  cases h : outKind (applyValue v) <;> simp

/-- C7: coercing an unsigned integer value strictly greater than
math.MaxInt64 yields the string setter with the exact decimal
representation of the value (never a wrapped integer); every unsigned
value at or below that bound is narrowed to int64, and the sub-64-bit
unsigned widths can never exceed the bound at all. -/
theorem C7_unsigned_overflow_to_string :
    ∀ (n : Fin (2 ^ 64)) (n8 : Fin (2 ^ 8)) (n16 : Fin (2 ^ 16)) (n32 : Fin (2 ^ 32)),
      (maxInt64 < n.val →
        applyValue (GoVal.u n) = SinkCall.setString (Nat.repr n.val) ∧
        applyValue (GoVal.u64 n) = SinkCall.setString (Nat.repr n.val)) ∧
      (n.val ≤ maxInt64 →
        applyValue (GoVal.u n) = SinkCall.setInt64 (Int.ofNat n.val) ∧
        applyValue (GoVal.u64 n) = SinkCall.setInt64 (Int.ofNat n.val)) ∧
      applyValue (GoVal.u8 n8) = SinkCall.setInt64 (Int.ofNat n8.val) ∧
      applyValue (GoVal.u16 n16) = SinkCall.setInt64 (Int.ofNat n16.val) ∧
      applyValue (GoVal.u32 n32) = SinkCall.setInt64 (Int.ofNat n32.val) ∧
      (maxInt64 < n8.val → False) ∧
      (maxInt64 < n16.val → False) ∧
      (maxInt64 < n32.val → False) := by
  intro n n8 n16 n32
  refine ⟨?_, ?_, rfl, rfl, rfl, ?_, ?_, ?_⟩
  · intro h
    constructor <;> simp [applyValue, h]
  · intro h
    have hb : ¬ maxInt64 < n.val := not_lt.mpr h
    constructor <;> simp [applyValue, hb]
  · intro h
    have hb := n8.isLt
    simp only [maxInt64] at h
    norm_num at h hb
    omega
  · intro h
    have hb := n16.isLt
    simp only [maxInt64] at h
    norm_num at h hb
    omega
  · intro h
    have hb := n32.isLt
    simp only [maxInt64] at h
    norm_num at h hb
    omega

/-- C7 witness: 2 to the 63rd power overflows int64 and is rendered as
its exact decimal string; a small uint8 narrows to int64. -/
theorem C7_unsigned_overflow_to_string_witness :
    applyValue (GoVal.u64 ⟨2 ^ 63, by norm_num⟩) = SinkCall.setString ("9223372036854775808") ∧
    applyValue (GoVal.u8 ⟨5, by norm_num⟩) = SinkCall.setInt64 (Int.ofNat 5) := by
  have h := C7_unsigned_overflow_to_string ⟨2 ^ 63, by norm_num⟩ ⟨5, by norm_num⟩
    ⟨0, by norm_num⟩ ⟨0, by norm_num⟩
  constructor
  · have h2 := (h.1 (by norm_num [maxInt64])).2
    rw [h2]
    rfl
  · exact h.2.2.1

/-- C4: addFields (the event-variant With) copies the parent's map and
merges the coerced new fields over the copy: a key freshly bound by the
new fields reads back as its last (coerced) binding, a key the new fields
do not bind retains the parent's value, and a key bound by neither the
parent nor the new fields is absent — in particular, for B = A.With(f1)
and C = A.With(f2), B does not contain keys only f2 introduces and C does
not contain keys only f1 introduces, while both retain all of A's
context.  The parent value itself is never mutated (the embedding is
pure, mirroring the defensive copy in the source). -/
theorem C4_with_copy_merge_independence :
    ∀ (s : EventVariant.SentryCore) (f1 f2 : List Field) (k : String),
      (fmLookup (EventVariant.addFields s f1).fields k =
        match lastBinding (encMap f1) k with
        | some v => some v
        | none => fmLookup s.fields k) ∧
      (∀ v : GoVal, lastBinding (encMap f1) k = some v →
        fmLookup (EventVariant.addFields s f1).fields k = some v) ∧
      (lastBinding (encMap f1) k = none →
        fmLookup (EventVariant.addFields s f1).fields k = fmLookup s.fields k) ∧
      (fmLookup s.fields k = none → lastBinding (encMap f1) k = none →
        fmLookup (EventVariant.addFields s f1).fields k = none) ∧
      (fmLookup s.fields k = none → lastBinding (encMap f2) k = none →
        fmLookup (EventVariant.addFields s f2).fields k = none) := by
  intro s f1 f2 k
  have hch : ∀ fs : List Field,
      fmLookup (EventVariant.addFields s fs).fields k =
        match lastBinding (encMap fs) k with
        | some v => some v
        | none => fmLookup s.fields k := by
    intro fs
    simp only [EventVariant.addFields]
    exact mergeInto_lookup (encMap fs) s.fields k
  refine ⟨hch f1, ?_, ?_, ?_, ?_⟩
  · intro v hv
    rw [hch f1, hv]
  · intro hv
    rw [hch f1, hv]
  · intro hs hv
    rw [hch f1, hv, hs]
  · intro hs hv
    rw [hch f2, hv, hs]

/-- C4 witness: from a parent holding key a, the derived core retains a,
sees its own new key b, and does not contain the sibling-only key c. -/
theorem C4_with_copy_merge_independence_witness :
    fmLookup (EventVariant.addFields
        { minLevel := ErrorLevel, fields := [(("a" : String), GoVal.str ("1"))], stackTrace := false }
        [{ key := "b", type := FieldType.stringType, integer := 0, string := "2",
           iface := FieldIface.nilIface }]).fields ("b") = some (GoVal.str ("2")) ∧
    fmLookup (EventVariant.addFields
        { minLevel := ErrorLevel, fields := [(("a" : String), GoVal.str ("1"))], stackTrace := false }
        [{ key := "b", type := FieldType.stringType, integer := 0, string := "2",
           iface := FieldIface.nilIface }]).fields ("a")
      = fmLookup [(("a" : String), GoVal.str ("1"))] ("a") ∧
    fmLookup (EventVariant.addFields
        { minLevel := ErrorLevel, fields := [(("a" : String), GoVal.str ("1"))], stackTrace := false }
        [{ key := "b", type := FieldType.stringType, integer := 0, string := "2",
           iface := FieldIface.nilIface }]).fields ("c") = none := by
  refine ⟨?_, ?_, ?_⟩
  · exact (C4_with_copy_merge_independence
      { minLevel := ErrorLevel, fields := [(("a" : String), GoVal.str ("1"))], stackTrace := false }
      [{ key := "b", type := FieldType.stringType, integer := 0, string := "2",
         iface := FieldIface.nilIface }] [] ("b")).2.1 (GoVal.str ("2")) rfl
  · exact (C4_with_copy_merge_independence
      { minLevel := ErrorLevel, fields := [(("a" : String), GoVal.str ("1"))], stackTrace := false }
      [{ key := "b", type := FieldType.stringType, integer := 0, string := "2",
         iface := FieldIface.nilIface }] [] ("a")).2.2.1 rfl
  · exact (C4_with_copy_merge_independence
      { minLevel := ErrorLevel, fields := [(("a" : String), GoVal.str ("1"))], stackTrace := false }
      [{ key := "b", type := FieldType.stringType, integer := 0, string := "2",
         iface := FieldIface.nilIface }] [] ("c")).2.2.2.1 rfl rfl

theorem encStep_fst (acc : Option Ctx × FieldMap) (f : Field) :
    (LogVariant.encStep acc f).1 =
      match LogVariant.fieldCtx f with
      | some c => some c
      | none => acc.1 := by
  simp only [LogVariant.encStep, LogVariant.fieldCtx]
  by_cases h : f.type = FieldType.skipType
  · cases f.iface <;> simp [h]
  · simp [h]

theorem encStep_snd (acc : Option Ctx × FieldMap) (f : Field) :
    (LogVariant.encStep acc f).2 =
      if f.type = FieldType.skipType then acc.2 else fieldAddTo acc.2 f := by
  simp only [LogVariant.encStep]
  by_cases h : f.type = FieldType.skipType
  · cases f.iface <;> simp [h]
  · simp [h]

theorem encodeFields_fst_gen (fs : List Field) :
    ∀ (c0 : Option Ctx) (m0 : FieldMap),
      (List.foldl LogVariant.encStep (c0, m0) fs).1 =
        match LogVariant.lastCtxCarrier fs with
        | some c => some c
        | none => c0 := by
  induction fs with
  | nil => intro c0 m0; rfl
  | cons f rest ih =>
    intro c0 m0
    have step : List.foldl LogVariant.encStep (c0, m0) (f :: rest)
        = List.foldl LogVariant.encStep (LogVariant.encStep (c0, m0) f) rest := rfl
    rw [step, ← Prod.mk.eta (p := LogVariant.encStep (c0, m0) f), ih, encStep_fst]
    simp only [LogVariant.lastCtxCarrier]
    cases hl : LogVariant.lastCtxCarrier rest <;>
      cases hc : LogVariant.fieldCtx f <;> simp

theorem encodeFields_snd_gen (fs : List Field) :
    ∀ (c0 : Option Ctx) (m0 : FieldMap),
      (List.foldl LogVariant.encStep (c0, m0) fs).2 =
        List.foldl fieldAddTo m0
          (fs.filter (fun f => decide (¬ f.type = FieldType.skipType))) := by
  induction fs with
  | nil => intro c0 m0; rfl
  | cons f rest ih =>
    intro c0 m0
    have step : List.foldl LogVariant.encStep (c0, m0) (f :: rest)
        = List.foldl LogVariant.encStep (LogVariant.encStep (c0, m0) f) rest := rfl
    by_cases h : f.type = FieldType.skipType
    · have hf : List.filter (fun f => decide (¬ f.type = FieldType.skipType)) (f :: rest)
          = List.filter (fun f => decide (¬ f.type = FieldType.skipType)) rest := by
        simp [List.filter, h]
      have hsnd : (LogVariant.encStep (c0, m0) f).2 = m0 := by
        rw [encStep_snd]
        simp [h]
      rw [hf, step, ← Prod.mk.eta (p := LogVariant.encStep (c0, m0) f), hsnd, ih]
    · have hf : List.filter (fun f => decide (¬ f.type = FieldType.skipType)) (f :: rest)
          = f :: List.filter (fun f => decide (¬ f.type = FieldType.skipType)) rest := by
        simp [List.filter, h]
      have hpair : LogVariant.encStep (c0, m0) f = (c0, fieldAddTo m0 f) := by
        simp [LogVariant.encStep, h]
      rw [hf, step, hpair, ih]
      rfl

theorem foldAttrs_ctx (l : List (String × GoVal)) :
    ∀ e : LogVariant.LogEntryRec,
      (List.foldl (fun e2 kv => LogVariant.applyValueToLogEntry e2 kv.1 kv.2) e l).ctx
        = e.ctx := by
  induction l with
  | nil => intro e; rfl
  | cons kv rest ih =>
    intro e
    have step : List.foldl (fun e2 kv => LogVariant.applyValueToLogEntry e2 kv.1 kv.2) e (kv :: rest)
        = List.foldl (fun e2 kv => LogVariant.applyValueToLogEntry e2 kv.1 kv.2)
            (LogVariant.applyValueToLogEntry e kv.1 kv.2) rest := rfl
    rw [step, ih]
    rfl

theorem writeBeforeStack_ctx (s : LogVariant.SentryCore) (entry : Entry) (fs : List Field) :
    (LogVariant.writeBeforeStack s entry fs).ctx =
      match (LogVariant.encodeFields fs).1 with
      | none => s.logger.ctx
      | some c => some c := by
  cases hr : (LogVariant.encodeFields fs).1 with
  | none =>
    simp only [LogVariant.writeBeforeStack, hr]
    split_ifs <;>
      simp [LogVariant.entryString, LogVariant.entryInt, foldAttrs_ctx, LogVariant.logEntryStart]
  | some c =>
    simp only [LogVariant.writeBeforeStack, hr]
    split_ifs <;>
      simp [LogVariant.entryString, LogVariant.entryInt, foldAttrs_ctx, LogVariant.logEntryStart]

/-- C5: for every processed field list, a skip-type field carrying a
non-nil execution context is recorded as the extracted trace/context
handle — the last carrier wins — and skip-type fields are never inserted
among the ordinary encoded entries (the encoder output is exactly that of
the non-skip fields); when no carrier is present, With keeps the
previously accumulated context (falling back to context.Background() only
when the logger had none) and Write emits against the logger's own
context rather than resetting it; when a carrier is present, both adopt
it. -/
theorem C5_context_carrier_handling :
    ∀ (fs : List Field) (s : LogVariant.SentryCore) (entry : Entry)
      (fresh : String) (client : Option Client) (c : Ctx),
      ((LogVariant.encodeFields fs).1 = LogVariant.lastCtxCarrier fs) ∧
      ((LogVariant.encodeFields fs).2 =
        List.foldl fieldAddTo []
          (fs.filter (fun f => decide (¬ f.type = FieldType.skipType)))) ∧
      (LogVariant.lastCtxCarrier fs = none →
        (LogVariant.With s fs).logger.ctx =
          some (match s.logger.ctx with
            | none => Ctx.background
            | some c0 => c0)) ∧
      (LogVariant.lastCtxCarrier fs = some c →
        (LogVariant.With s fs).logger.ctx = some c) ∧
      (LogVariant.lastCtxCarrier fs = none →
        (LogVariant.Write s entry fs fresh client).record.ctx = s.logger.ctx) ∧
      (LogVariant.lastCtxCarrier fs = some c →
        (LogVariant.Write s entry fs fresh client).record.ctx = some c) := by
  intro fs s entry fresh client c
  have h1 : (LogVariant.encodeFields fs).1 = LogVariant.lastCtxCarrier fs := by
    rw [LogVariant.encodeFields, encodeFields_fst_gen]
    cases LogVariant.lastCtxCarrier fs <;> rfl
  have hwctx : (LogVariant.Write s entry fs fresh client).record.ctx
      = (LogVariant.writeBeforeStack s entry fs).ctx := by
    simp only [LogVariant.Write]
    split_ifs <;> simp [LogVariant.entryString]
  refine ⟨h1, ?_, ?_, ?_, ?_, ?_⟩
  · rw [LogVariant.encodeFields, encodeFields_snd_gen]
  · intro hl
    simp only [LogVariant.With, h1, hl]
  · intro hl
    simp only [LogVariant.With, h1, hl]
  · intro hl
    rw [hwctx, writeBeforeStack_ctx, h1, hl]
  · intro hl
    rw [hwctx, writeBeforeStack_ctx, h1, hl]

/-- C5 witness: a field list with a carrier adopts its handle and keeps
the carrier key out of the encoded map; an empty field list retains the
previous handle in both With and Write. -/
theorem C5_context_carrier_handling_witness :
    (LogVariant.encodeFields
        [{ key := "ctx", type := FieldType.skipType, integer := 0, string := "",
           iface := FieldIface.ctxVal (Ctx.handle 7) }]).2 = [] ∧
    (LogVariant.With
        { minLevel := ErrorLevel, logger := { ctx := some (Ctx.handle 3), attrs := [] },
          attributes := [], stackTrace := false }
        [{ key := "ctx", type := FieldType.skipType, integer := 0, string := "",
           iface := FieldIface.ctxVal (Ctx.handle 7) }]).logger.ctx = some (Ctx.handle 7) ∧
    (LogVariant.With
        { minLevel := ErrorLevel, logger := { ctx := some (Ctx.handle 3), attrs := [] },
          attributes := [], stackTrace := false } []).logger.ctx = some (Ctx.handle 3) ∧
    (LogVariant.Write
        { minLevel := ErrorLevel, logger := { ctx := some (Ctx.handle 3), attrs := [] },
          attributes := [], stackTrace := false }
        { level := ErrorLevel, message := "m", loggerName := "", stack := "",
          callerDefined := false, callerFile := "", callerLine := 0, time := 0 }
        [] "" none).record.ctx = some (Ctx.handle 3) := by
  refine ⟨?_, ?_, ?_, ?_⟩
  · exact (C5_context_carrier_handling
      [{ key := "ctx", type := FieldType.skipType, integer := 0, string := "",
         iface := FieldIface.ctxVal (Ctx.handle 7) }]
      { minLevel := ErrorLevel, logger := { ctx := some (Ctx.handle 3), attrs := [] },
        attributes := [], stackTrace := false }
      { level := ErrorLevel, message := "m", loggerName := "", stack := "",
        callerDefined := false, callerFile := "", callerLine := 0, time := 0 }
      ("") none (Ctx.handle 7)).2.1
  · exact (C5_context_carrier_handling
      [{ key := "ctx", type := FieldType.skipType, integer := 0, string := "",
         iface := FieldIface.ctxVal (Ctx.handle 7) }]
      { minLevel := ErrorLevel, logger := { ctx := some (Ctx.handle 3), attrs := [] },
        attributes := [], stackTrace := false }
      { level := ErrorLevel, message := "m", loggerName := "", stack := "",
        callerDefined := false, callerFile := "", callerLine := 0, time := 0 }
      ("") none (Ctx.handle 7)).2.2.2.1 rfl
  · exact (C5_context_carrier_handling []
      { minLevel := ErrorLevel, logger := { ctx := some (Ctx.handle 3), attrs := [] },
        attributes := [], stackTrace := false }
      { level := ErrorLevel, message := "m", loggerName := "", stack := "",
        callerDefined := false, callerFile := "", callerLine := 0, time := 0 }
      ("") none Ctx.background).2.2.1 rfl
  · exact (C5_context_carrier_handling []
      { minLevel := ErrorLevel, logger := { ctx := some (Ctx.handle 3), attrs := [] },
        attributes := [], stackTrace := false }
      { level := ErrorLevel, message := "m", loggerName := "", stack := "",
        callerDefined := false, callerFile := "", callerLine := 0, time := 0 }
      ("") none Ctx.background).2.2.2.2.1 rfl

/-- C8 counterexample: the event-variant Write does not prefer a stack
already captured on the entry.  On a concrete error-level entry carrying
non-empty pre-rendered stack text, with the stack-trace policy enabled,
the attached exception payload's stack is a fresh capture (the source
passes errors.New(entry.Message) to SetException and never reads
entry.Stack), not the entry's stack text. -/
theorem C8_counterexample_event_ignores_entry_stack :
    (EventVariant.Write
        { minLevel := ErrorLevel, fields := [], stackTrace := true }
        { client := none }
        { level := ErrorLevel, message := "boom", loggerName := "", stack := "zap stack text",
          callerDefined := false, callerFile := "", callerLine := 0, time := 0 }
        []).event.exception =
      [{ message := "boom", maxDepth := 10, stack := EventVariant.StackSrc.freshCapture }] ∧
    EventVariant.StackSrc.freshCapture ≠ EventVariant.StackSrc.text ("zap stack text") := by
  exact ⟨by decide, by decide⟩

/-- C8 as amended: Write attaches a stack payload exactly when the policy
is enabled and the level is at or above error.  The event variant then
attaches exactly one exception payload whose message equals the log
message, with depth bounded by the backend client's configured maximum
(fallback 10 without a client) and a freshly captured stack (the entry's
pre-rendered stack text is not consulted); the log-entry variant attaches
a plain stack-text attribute, preferring the stack already captured on
the entry and otherwise using one captured fresh at that point; with the
policy disabled (or below error) neither variant attaches anything. -/
theorem C8_amended_stacktrace_policy :
    ∀ (s : EventVariant.SentryCore) (hub : Hub) (entry : Entry) (fields : List Field)
      (t : LogVariant.SentryCore) (entry2 : Entry) (fields2 : List Field)
      (fresh : String) (client : Option Client),
      (ErrorLevel ≤ entry.level ∧ s.stackTrace = true →
        (EventVariant.Write s hub entry fields).event.exception =
          [{ message := entry.message
             maxDepth := match hub.client with
               | none => 10
               | some c => c.maxErrorDepth
             stack := EventVariant.StackSrc.freshCapture }]) ∧
      (¬ (ErrorLevel ≤ entry.level ∧ s.stackTrace = true) →
        (EventVariant.Write s hub entry fields).event.exception = []) ∧
      ((LogVariant.Write t entry2 fields2 fresh client).record.attrs =
        (LogVariant.writeBeforeStack t entry2 fields2).attrs ++
          (if t.stackTrace = true ∧ ErrorLevel ≤ entry2.level then
            [(("stacktrace" : String),
              SinkCall.setString (if entry2.stack ≠ "" then entry2.stack else fresh))]
          else [])) ∧
      (fresh ≠ "" → (if entry2.stack ≠ "" then entry2.stack else fresh) ≠ "") := by
  intro s hub entry fields t entry2 fields2 fresh client
  refine ⟨?_, ?_, ?_, ?_⟩
  · intro h
    simp [EventVariant.Write, h]
  · intro h
    simp [EventVariant.Write, h]
  · simp only [LogVariant.Write]
    split_ifs with h1 h2
    · simp [LogVariant.entryString]
    · simp [LogVariant.entryString]
    · exact (List.append_nil _).symm
  · intro h
    by_cases hs : entry2.stack = "" <;> simp [hs, h]

/-- C8 amended witness: a concrete error-level entry with the policy on
yields the single exception payload in the event variant and the
stack-text attribute in the log-entry variant; with the policy off the
event variant attaches nothing. -/
theorem C8_amended_stacktrace_policy_witness :
    (EventVariant.Write
        { minLevel := ErrorLevel, fields := [], stackTrace := true }
        { client := some { maxErrorDepth := 5 } }
        { level := ErrorLevel, message := "boom", loggerName := "", stack := "",
          callerDefined := false, callerFile := "", callerLine := 0, time := 0 }
        []).event.exception =
      [{ message := "boom", maxDepth := 5, stack := EventVariant.StackSrc.freshCapture }] ∧
    (EventVariant.Write
        { minLevel := ErrorLevel, fields := [], stackTrace := false }
        { client := some { maxErrorDepth := 5 } }
        { level := ErrorLevel, message := "boom", loggerName := "", stack := "",
          callerDefined := false, callerFile := "", callerLine := 0, time := 0 }
        []).event.exception = [] := by
  constructor
  · exact (C8_amended_stacktrace_policy
      { minLevel := ErrorLevel, fields := [], stackTrace := true }
      { client := some { maxErrorDepth := 5 } }
      { level := ErrorLevel, message := "boom", loggerName := "", stack := "",
        callerDefined := false, callerFile := "", callerLine := 0, time := 0 } []
      { minLevel := ErrorLevel, logger := { ctx := none, attrs := [] },
        attributes := [], stackTrace := false }
      { level := ErrorLevel, message := "boom", loggerName := "", stack := "",
        callerDefined := false, callerFile := "", callerLine := 0, time := 0 } []
      ("fresh") none).1 (by exact ⟨by decide, rfl⟩)
  · exact (C8_amended_stacktrace_policy
      { minLevel := ErrorLevel, fields := [], stackTrace := false }
      { client := some { maxErrorDepth := 5 } }
      { level := ErrorLevel, message := "boom", loggerName := "", stack := "",
        callerDefined := false, callerFile := "", callerLine := 0, time := 0 } []
      { minLevel := ErrorLevel, logger := { ctx := none, attrs := [] },
        attributes := [], stackTrace := false }
      { level := ErrorLevel, message := "boom", loggerName := "", stack := "",
        callerDefined := false, callerFile := "", callerLine := 0, time := 0 } []
      ("fresh") none).2.1 (by simp)

/-- C9 counterexample: in the event variant the 2-second flush is not
offloaded to a background unit of work — on a concrete Write call no
goroutine is spawned and the deferred flush runs on the calling goroutine
before Write returns (so the caller waits on the flush, contradicting the
claim that for every Write the flush is handed off to an independently
scheduled background unit). -/
theorem C9_counterexample_event_flush_synchronous :
    (EventVariant.Write
        { minLevel := ErrorLevel, fields := [], stackTrace := false }
        { client := none }
        { level := ErrorLevel, message := "m", loggerName := "", stack := "",
          callerDefined := false, callerFile := "", callerLine := 0, time := 0 }
        []).spawned = [] ∧
    (EventVariant.Write
        { minLevel := ErrorLevel, fields := [], stackTrace := false }
        { client := none }
        { level := ErrorLevel, message := "m", loggerName := "", stack := "",
          callerDefined := false, callerFile := "", callerLine := 0, time := 0 }
        []).syncActions = [BgAction.flush 2] ∧
    EventVariant.Sync.spawned = [] := by
  exact ⟨rfl, rfl, rfl⟩

/-- C9 as amended: only the log-entry variant offloads the best-effort
flush to a spawned background goroutine (in Write and in Sync), so there
the call returns without waiting for the flush; the event variant instead
runs the 2-second-bounded flush synchronously on the calling goroutine
(deferred to the end of Write, and inline in Sync), while its dispatch is
a hand-off to the backend client's transport. -/
theorem C9_amended_background_scheduling :
    ∀ (s : EventVariant.SentryCore) (hub : Hub) (entry : Entry) (fields : List Field)
      (t : LogVariant.SentryCore) (entry2 : Entry) (fields2 : List Field)
      (fresh : String) (client : Option Client),
      (EventVariant.Write s hub entry fields).syncActions = [BgAction.flush 2] ∧
      (EventVariant.Write s hub entry fields).spawned = [] ∧
      EventVariant.Sync.syncActions = [BgAction.flush 2] ∧
      EventVariant.Sync.spawned = [] ∧
      (LogVariant.Write t entry2 fields2 fresh client).spawned = [BgAction.flush 2] ∧
      (LogVariant.Write t entry2 fields2 fresh client).syncActions = [] ∧
      LogVariant.Sync.spawned = [BgAction.flush 2] ∧
      LogVariant.Sync.syncActions = [] := by
  intro s hub entry fields t entry2 fields2 fresh client
  exact ⟨rfl, rfl, rfl, rfl, rfl, rfl, rfl, rfl⟩

/-- C10: the event-variant addFields (and hence its With) builds the
derived core without copying the parent's stack-trace policy, so the
derived instance always has the policy off and never attaches an
exception payload — regardless of how the parent was constructed; the
log-entry variant's With copies the parent's policy into the derived
instance. -/
theorem C10_derived_core_stacktrace :
    (∀ (s : EventVariant.SentryCore) (fs : List Field),
      (EventVariant.addFields s fs).stackTrace = false) ∧
    (∀ (s : EventVariant.SentryCore) (fs : List Field),
      (EventVariant.With s fs).stackTrace = false) ∧
    (∀ (s : EventVariant.SentryCore) (fs : List Field) (hub : Hub) (entry : Entry)
      (f2 : List Field),
      (EventVariant.Write (EventVariant.With s fs) hub entry f2).event.exception = []) ∧
    (∀ (t : LogVariant.SentryCore) (fs : List Field),
      (LogVariant.With t fs).stackTrace = t.stackTrace) := by
  refine ⟨fun s fs => rfl, fun s fs => rfl, ?_, fun t fs => rfl⟩
  intro s fs hub entry f2
  simp [EventVariant.Write, EventVariant.With, EventVariant.addFields]

end SentryZapCore
